import Mathlib

/-!
Verification of `ImageClassifier/train.py`.

The script fine-tunes a pretrained torchvision backbone (vgg16 or
densenet121) into a 102-class flower classifier and persists a checkpoint.
We embed the data model and the operations shallowly:

* tensors are flattened lists of rationals (floating point is modelled by ℚ;
  the claims under study are structural, not about rounding);
* a parameter is a tensor together with its `requires_grad` flag;
* torch externals (pretrained weight download, forward/backward, optimizer
  updates, random initialization) are parameters of the embedding; the code
  of `train.py` itself is translated line by line.
-/

/-- A flattened tensor of parameter values. -/
abbrev Tensor : Type := List ℚ

/-- A model parameter: its values and its `requires_grad` flag. -/
structure ParamT where
  data : Tensor
  requires_grad : Bool
deriving DecidableEq

/-- One layer of an `nn.Sequential`, as named in the `OrderedDict` of
`load_model` (train.py lines 44-51). -/
inductive LayerSpec where
  | linear (name : String) (inF outF : Nat)
  | relu (name : String)
  | logSoftmax (name : String) (dim : Nat)
deriving DecidableEq

/-- An `nn.Sequential` classifier: its layer topology and its named
parameters. -/
structure Classifier where
  layers : List LayerSpec
  params : List (String × ParamT)
deriving DecidableEq

/-- A compute device, as produced by `torch.device`. -/
inductive Device where
  | cpu
  | cuda
deriving DecidableEq

/-- Failure modes of the embedded program, using the names of the spec's
error taxonomy where the spec names one. -/
inductive Err where
  | DeviceUnavailable
  | divByZero
  | stateDictMismatch
  | invalidChoice
deriving DecidableEq

/-- A torch module as assembled by `load_model`: a feature-extractor
backbone (named parameters), a classifier, the `class_to_idx` attribute
(absent until `save_checkpoint` sets it), and the device the module was
moved to.  `arch` records which torchvision constructor produced the
backbone. -/
structure Model where
  arch : String
  features : List (String × ParamT)
  classifier : Classifier
  class_to_idx : Option (List (String × Nat))
  device : Device
deriving DecidableEq

/-- The result of `model.state_dict()`: parameter values (no grad flags),
split into the backbone part and the `classifier.` part of the flat
key space. -/
structure SD where
  features : List (String × Tensor)
  classifier : List (String × Tensor)
deriving DecidableEq

/-- The value of `model.state_dict()` (train.py line 119). -/
def Model.state_dict (m : Model) : SD :=
  { features := m.features.map (fun p => (p.1, p.2.data))
  , classifier := m.classifier.params.map (fun p => (p.1, p.2.data)) }

/-- An `ImageFolder` dataset, reduced to the one attribute the core
reads: `class_to_idx`. -/
structure Dataset where
  class_to_idx : List (String × Nat)
deriving DecidableEq

/-- An `optim.Adam` optimizer: the names of the parameters it updates, the
learning rate, and its per-parameter running statistics. -/
structure Optimizer where
  param_names : List String
  lr : ℚ
  state : List (String × Tensor)
deriving DecidableEq

/-- The result of `optimizer.state_dict()`: the running statistics plus the
param-group hyperparameters (learning rate). -/
structure OptSD where
  state : List (String × Tensor)
  lr : ℚ
deriving DecidableEq

/-- The value of `optimizer.state_dict()` (train.py line 121). -/
def Optimizer.state_dict (o : Optimizer) : OptSD :=
  { state := o.state, lr := o.lr }

/-- The checkpoint bundle built by `save_checkpoint`
(train.py lines 111-122): exactly the ten keys of the source dictionary. -/
structure Checkpoint where
  pretrained_model : String
  input_size : Nat
  output_size : Nat
  learning_rate : ℚ
  hidden_units : Nat
  classifier : Classifier
  epochs : Nat
  state_dict : SD
  class_to_idx : List (String × Nat)
  optimizer : OptSD
deriving DecidableEq

/-- The torchvision pretrained-model hub: the two models
`models.vgg16(pretrained=True)` and `models.densenet121(pretrained=True)`
can return.  Their weights are an external input of the program. -/
structure Hub where
  vgg16 : Model
  densenet121 : Model

/-- The `choices` list of the `--arch` argument
(train.py line 18). -/
def archChoices : List String := ["vgg16", "densenet121"]

/-- Embedding of argparse's `choices` check on `--arch`: any name outside
the list is rejected before `load_model` ever runs. -/
def parseArch (s : String) : Except Err String :=
  if s ∈ archChoices then .ok s else .error .invalidChoice

/-- The parameter names of the classifier head built in `load_model`:
three `nn.Linear` layers, each with a weight and a bias. -/
def classifierParamNames : List String :=
  ["fc1.weight", "fc1.bias", "fc2.weight", "fc2.bias", "fc3.weight", "fc3.bias"]

/-- The layer topology of the classifier head (train.py lines 44-51). -/
def classifierSpec (num_in_features hidden_units : Nat) : List LayerSpec :=
  [ .linear "fc1" num_in_features hidden_units
  , .relu "relu1"
  , .linear "fc2" hidden_units hidden_units
  , .relu "relu2"
  , .linear "fc3" hidden_units 102
  , .logSoftmax "output" 1 ]

/-- The classifier head object built in `load_model` (train.py lines
44-51).  `init` is the external random initialization torch gives each
fresh `nn.Linear` parameter; fresh parameters have `requires_grad = true`. -/
def buildClassifier (num_in_features hidden_units : Nat)
    (init : String → Tensor) : Classifier :=
  { layers := classifierSpec num_in_features hidden_units
  , params := classifierParamNames.map (fun n => (n, ⟨init n, true⟩)) }

/-- The freezing loop `for param in model.parameters():
param.requires_grad = False` (train.py lines 41-42); `model.parameters()`
ranges over the backbone and the (still original) classifier parameters. -/
def freezeAll (m : Model) : Model :=
  { m with
    features := m.features.map (fun p => (p.1, ⟨p.2.data, false⟩))
    classifier := { m.classifier with
      params := m.classifier.params.map (fun p => (p.1, ⟨p.2.data, false⟩)) } }

/-- The call `model.to(device)` (train.py line 54).  Torch raises a runtime
error when the cuda device is requested but no accelerator exists; the spec
names this failure `DeviceUnavailable`.  There is no fallback to cpu. -/
def moveTo (m : Model) (d : Device) (cudaAvailable : Bool) : Except Err Model :=
  match d with
  | .cuda => if cudaAvailable then .ok { m with device := .cuda }
             else .error .DeviceUnavailable
  | .cpu => .ok { m with device := .cpu }

/-- Embedding of `load_model` (train.py lines 25-55): resolve the device
from the `gpu` flag, pick the pretrained backbone by name (any name other
than `"vgg16"` takes the `else` branch and loads densenet121), freeze every
parameter of the pretrained model, replace its classifier with the fresh
head, and move the model to the device. -/
def load_model (hub : Hub) (cudaAvailable : Bool) (arch : String)
    (hidden_units : Nat) (gpu : Bool) (init : String → Tensor) :
    Except Err (Model × Device × Nat) :=
  let device : Device := if gpu then .cuda else .cpu
  let pick : Model × Nat :=
    if arch = "vgg16" then (hub.vgg16, 25088) else (hub.densenet121, 1024)
  let frozen := freezeAll pick.1
  let assembled := { frozen with
    classifier := buildClassifier pick.2 hidden_units init }
  match moveTo assembled device cudaAvailable with
  | .error e => .error e
  | .ok m => .ok (m, device, pick.2)

/-- The optimizer construction
`optim.Adam(model.classifier.parameters(), lr=...)` (train.py line 156):
Adam starts with empty per-parameter statistics. -/
def mkAdam (param_names : List String) (lr : ℚ) : Optimizer :=
  { param_names := param_names, lr := lr, state := [] }

/-- The parameters of a model that are trainable (`requires_grad = true`),
backbone and classifier together. -/
def Model.trainableParams (m : Model) : List (String × ParamT) :=
  m.features.filter (fun p => p.2.requires_grad) ++
    m.classifier.params.filter (fun p => p.2.requires_grad)

/-- Embedding of `save_checkpoint` (train.py lines 106-125): attach
`class_to_idx` from `image_datasets[0]` onto the model (a Python
IndexError on an empty list is modelled by `none`), then build the
ten-field bundle and persist it.  The returned pair is the mutated model
and the persisted artifact. -/
def save_checkpoint (model : Model) (image_datasets : List Dataset)
    (epochs : Nat) (optimizer : Optimizer) (learning_rate : ℚ)
    (input_size output_size : Nat) (arch : String) (hidden_units : Nat) :
    Option (Model × Checkpoint) :=
  match image_datasets with
  | [] => none
  | d :: _ =>
    let model := { model with class_to_idx := some d.class_to_idx }
    some (model,
      { pretrained_model := arch
      , input_size := input_size
      , output_size := output_size
      , learning_rate := learning_rate
      , hidden_units := hidden_units
      , classifier := model.classifier
      , epochs := epochs
      , state_dict := model.state_dict
      , class_to_idx := d.class_to_idx
      , optimizer := optimizer.state_dict })

/-- Modelled from the spec: `optimizer.load_state_dict` (torch external,
used by the §4.5 Load contract): primes the optimizer with the stored
running statistics and param-group hyperparameters. -/
def Optimizer.load_state_dict (o : Optimizer) (sd : OptSD) : Optimizer :=
  { o with state := sd.state, lr := sd.lr }

/-- Replace the values of a named parameter list with the values of a
state-dict slice of matching names, keeping the grad flags. -/
def setData (ps : List (String × ParamT)) (sd : List (String × Tensor)) :
    List (String × ParamT) :=
  (ps.zip sd).map (fun q => (q.1.1, ⟨q.2.2, q.1.2.requires_grad⟩))

/-- Modelled from the spec: `model.load_state_dict` (torch external, used
by the §4.5 Load contract): with strict key checking, replaces every
parameter value by the stored one and fails when the key sets differ. -/
def loadStateDict (m : Model) (sd : SD) : Except Err Model :=
  if m.features.map Prod.fst = sd.features.map Prod.fst ∧
      m.classifier.params.map Prod.fst = sd.classifier.map Prod.fst then
    .ok { m with
      features := setData m.features sd.features
      classifier := { m.classifier with
        params := setData m.classifier.params sd.classifier } }
  else .error .stateDictMismatch

/-- Modelled from the spec: the §4.5 Load contract, which is implemented by
an external inference/resume collaborator absent from `src/`.  Given the
checkpoint artifact and the backbone registry (the hub), rebuild the model
via `load_model` from the stored architecture name and hidden_units (on
cpu; the Load contract fixes no device), load the stored parameter values,
attach the stored `class_to_idx`, and prime a fresh Adam optimizer with the
stored optimizer state. -/
def load_checkpoint (hub : Hub) (ckpt : Checkpoint) (init : String → Tensor) :
    Except Err (Model × Optimizer) :=
  match load_model hub true ckpt.pretrained_model ckpt.hidden_units false init with
  | .error e => .error e
  | .ok (m, _, _) =>
    match loadStateDict m ckpt.state_dict with
    | .error e => .error e
    | .ok m =>
      let m := { m with class_to_idx := some ckpt.class_to_idx }
      let opt := (mkAdam (m.classifier.params.map Prod.fst)
        ckpt.learning_rate).load_state_dict ckpt.optimizer
      .ok (m, opt)

/-!
The training loop (`train_model`, train.py lines 57-104).

A training batch contributes one observable value to the loop logic: the
number `loss.item()` (forward, backward and the optimizer update are
external torch calls that the loop never reads back).  A validation batch
is observed through the probability rows `torch.exp(logps)` of the model's
forward pass, the label column, and the criterion value `loss.item()`.
The loop's observable behavior is recorded as a trace of events.
-/

/-- One batch of the validation source, as the loop observes it: `ps` is
the matrix `torch.exp(model.forward(inputs))` (one probability row per
example), `labels` the true class indices, `loss` the value
`criterion(logps, labels).item()`. -/
structure ValBatch where
  ps : List (List ℚ)
  labels : List Nat
  loss : ℚ
deriving DecidableEq

/-- Index of the largest entry of a row, first occurrence on ties: the
index `ps.topk(1, dim=1)` returns for that row. -/
def argmaxIdx (row : List ℚ) : Nat :=
  (row.enum.foldl (fun best p => if best.2 < p.2 then p else best)
    (0, row.headD 0)).1

/-- The per-batch value `torch.mean(equals.type(torch.FloatTensor)).item()`
(train.py lines 90-93): the fraction of examples whose top-1 class index
equals the true label. -/
def batchAccuracy (b : ValBatch) : ℚ :=
  (((b.ps.zip b.labels).map
    (fun q => if argmaxIdx q.1 = q.2 then (1 : ℚ) else 0)).sum) / b.ps.length

/-- The accumulation loop over the validation source (train.py lines
85-93): starting from `test_loss = 0` and `accuracy = 0`, add each batch's
criterion value and each batch's mean top-1 accuracy. -/
def validationPass (valB : List ValBatch) : ℚ × ℚ :=
  valB.foldl (fun acc b => (acc.1 + b.loss, acc.2 + batchAccuracy b)) (0, 0)

/-- One metrics report, as printed by train.py lines 95-98. -/
structure Report where
  epoch : Nat
  totalEpochs : Nat
  trainLoss : ℚ
  testLoss : ℚ
  accuracy : ℚ
deriving DecidableEq

/-- Observable events of the training loop.  `step e` is the completion of
one training step during epoch `e` (0-based); the remaining events record
the validation block: `model.eval()`, entering `torch.no_grad()`,
processing one validation batch, printing the report, the assignment
`running_loss = 0`, and `model.train()`. -/
inductive Ev where
  | step (epoch : Nat)
  | evalMode
  | noGrad
  | valBatch
  | report (r : Report)
  | resetRL
  | trainMode
deriving DecidableEq

/-- The event block a validation pass appends to the trace, in source
order (train.py lines 82-100). -/
def valBlock (k : Nat) (r : Report) : List Ev :=
  Ev.evalMode :: Ev.noGrad ::
    (List.replicate k Ev.valBatch ++ [Ev.report r, Ev.resetRL, Ev.trainMode])

/-- The mutable state of the training loop: the global step counter, the
running loss accumulator (train.py lines 61-62), and the trace of events
so far. -/
structure St where
  steps : Nat
  running_loss : ℚ
  events : List Ev
deriving DecidableEq

/-- The state before the first epoch: `steps = 0`, `running_loss = 0`. -/
def initSt : St := ⟨0, 0, []⟩

/-- The body of the inner batch loop (train.py lines 69-100) for one
training batch with criterion value `loss`, during epoch `e` of an
`epochs`-epoch run: increment `steps`, accumulate `running_loss`, and when
`steps % 5 == 0` run a full validation pass, print the report (dividing
`test_loss` and `accuracy` by `len(validateloader)` — a Python
ZeroDivisionError when the validation source has zero batches), zero
`running_loss` and return the model to training mode. -/
def trainBatch (epochs : Nat) (valB : List ValBatch) (e : Nat) (loss : ℚ)
    (s : St) : Except Err St :=
  let steps := s.steps + 1
  let rl := s.running_loss + loss
  let evs := s.events ++ [Ev.step e]
  if steps % 5 = 0 then
    if valB.length = 0 then .error .divByZero
    else
      .ok { steps := steps, running_loss := 0
          , events := evs ++ valBlock valB.length
              { epoch := e + 1, totalEpochs := epochs
              , trainLoss := rl / 5
              , testLoss := (validationPass valB).1 / valB.length
              , accuracy := (validationPass valB).2 / valB.length } }
  else
    .ok { steps := steps, running_loss := rl, events := evs }

/-- The inner loop `for inputs, labels in trainloader` of one epoch,
over the labelled list of that epoch's batch criterion values. -/
def runBatches (epochs : Nat) (valB : List ValBatch) :
    List (Nat × ℚ) → St → Except Err St
  | [], s => .ok s
  | b :: rest, s =>
    match trainBatch epochs valB b.1 b.2 s with
    | .error e => .error e
    | .ok s' => runBatches epochs valB rest s'

/-- The outer loop `for epoch in range(epochs)` (train.py line 68), over a
list of epoch indices; `losses e` is the criterion value of each batch the
train source yields in epoch `e` (the source is reshuffled every epoch, so
the batches of different epochs are independent). -/
def runEpochs (epochs : Nat) (losses : Nat → List ℚ) (valB : List ValBatch) :
    List Nat → St → Except Err St
  | [], s => .ok s
  | e :: es, s =>
    match runBatches epochs valB ((losses e).map (fun l => (e, l))) s with
    | .error err => .error err
    | .ok s' => runEpochs epochs losses valB es s'

/-- Embedding of `train_model` (train.py lines 57-104): run every epoch
from the initial state. -/
def train_model (epochs : Nat) (losses : Nat → List ℚ)
    (valB : List ValBatch) : Except Err St :=
  runEpochs epochs losses valB (List.range epochs) initSt

/-- The flattening of the nested epoch/batch loops: the sequence of
(epoch index, batch criterion value) pairs the run processes, in order. -/
def labeledFlat (epochs : Nat) (losses : Nat → List ℚ) : List (Nat × ℚ) :=
  (List.range epochs).flatMap (fun e => (losses e).map (fun l => (e, l)))

/-!
Expected-run characterization.  `mkTrace` predicts the full event trace of
a run from the flattened batch sequence alone, and `finalSt` predicts the
final loop state; the master theorem below proves the loop produces
exactly these.
-/

/-- Concatenation of the lists `f i` over a list of indices. -/
def catMap (f : Nat → List Ev) : List Nat → List Ev
  | [] => []
  | i :: is => f i ++ catMap f is

/-- The report the loop is expected to print at its `k`-th trigger
(0-based), reading the flattened labelled batch sequence `all`: the epoch
shown is the label of step `5*k+5` plus one, the train loss is the mean of
the 5 criterion values since the previous trigger, and the validation
metrics are the sums over the validation source divided by its batch
count. -/
def expectedReport (epochs : Nat) (valB : List ValBatch)
    (all : List (Nat × ℚ)) (k : Nat) : Report :=
  { epoch := (all.getD (5 * k + 4) (0, 0)).1 + 1
  , totalEpochs := epochs
  , trainLoss := (((all.map Prod.snd).drop (5 * k)).take 5).sum / 5
  , testLoss := (valB.map ValBatch.loss).sum / valB.length
  , accuracy := (valB.map batchAccuracy).sum / valB.length }

/-- The events contributed by the `i`-th batch of the flattened run: its
step event, followed by a full validation block when `i+1` is a multiple
of 5. -/
def stepEvs (epochs : Nat) (valB : List ValBatch) (all : List (Nat × ℚ))
    (i : Nat) : List Ev :=
  Ev.step (all.getD i (0, 0)).1 ::
    (if (i + 1) % 5 = 0 then
      valBlock valB.length (expectedReport epochs valB all ((i + 1) / 5 - 1))
    else [])

/-- The predicted event trace of a whole run. -/
def mkTrace (epochs : Nat) (valB : List ValBatch)
    (all : List (Nat × ℚ)) : List Ev :=
  catMap (stepEvs epochs valB all) (List.range all.length)

/-- The criterion values accumulated in `running_loss` and not yet
reported: the values of the batches after the last multiple-of-5 step. -/
def tailSum (all : List (Nat × ℚ)) : ℚ :=
  ((all.map Prod.snd).drop (5 * (all.length / 5))).sum

/-- The predicted final loop state of a run over `all`. -/
def finalSt (epochs : Nat) (valB : List ValBatch)
    (all : List (Nat × ℚ)) : St :=
  ⟨all.length, tailSum all, mkTrace epochs valB all⟩

/-- The reports appearing in a trace, in order. -/
def reportsOf (evs : List Ev) : List Report :=
  evs.filterMap (fun e => match e with | .report r => some r | _ => none)

/-- The global step counts at which reports occur: walking the trace with
a step counter starting at `c`, record the counter at every report. -/
def trigG : List Ev → Nat → List Nat
  | [], _ => []
  | .step _ :: r, c => trigG r (c + 1)
  | .report _ :: r, c => c :: trigG r c
  | _ :: r, c => trigG r c

/-- The number of training-step events in a trace. -/
def nSteps (evs : List Ev) : Nat :=
  evs.countP (fun e => match e with | .step _ => true | _ => false)

/-- The (epoch, in-epoch step position) of every report in a trace: the
in-epoch position counter restarts whenever the epoch label of the step
events changes. -/
def inEpochTriggers : List Ev → Option Nat → Nat → List (Nat × Nat)
  | [], _, _ => []
  | .step e :: r, cur, c =>
    if some e = cur then inEpochTriggers r cur (c + 1)
    else inEpochTriggers r (some e) 1
  | .report _ :: r, cur, c => (cur.getD 0, c) :: inEpochTriggers r cur c
  | _ :: r, cur, c => inEpochTriggers r cur c

/-- The number of validation-batch events in a trace. -/
def nValBatches (evs : List Ev) : Nat :=
  evs.countP (fun e => match e with | .valBatch => true | _ => false)

/-- A fixed parameter initializer for concrete runs. -/
def init0 : String → Tensor := fun _ => [0]

/-- A concrete pretrained vgg16 model for concrete runs. -/
def vggM : Model :=
  { arch := "vgg16"
  , features := [("features.0.weight", ⟨[1, 2], true⟩)]
  , classifier := { layers := [.linear "0" 25088 4096]
                  , params := [("0.weight", ⟨[3], true⟩)] }
  , class_to_idx := none
  , device := .cpu }

/-- A concrete pretrained densenet121 model for concrete runs. -/
def dnM : Model :=
  { arch := "densenet121"
  , features := [("features.conv0.weight", ⟨[4], true⟩)]
  , classifier := { layers := [.linear "cls" 1024 1000]
                  , params := [("cls.weight", ⟨[5], true⟩)] }
  , class_to_idx := none
  , device := .cpu }

/-- A concrete pretrained hub for concrete runs. -/
def hub0 : Hub := ⟨vggM, dnM⟩

/-- A one-batch validation source for concrete runs: one example whose
probability row is `[1]` and whose label is 0, with criterion value 1. -/
def valB0 : List ValBatch := [⟨[[1]], [0], 1⟩]

/-- A train source yielding exactly 12 batches (criterion value 1) in
every epoch. -/
def losses12 : Nat → List ℚ := fun _ => List.replicate 12 1

/-- A concrete training dataset for concrete runs. -/
def d0 : Dataset := ⟨[("rose", 0)]⟩

/-- A concrete optimizer for concrete runs. -/
def opt0 : Optimizer :=
  ⟨classifierParamNames, 1 / 1000, [("fc1.weight", [7])]⟩

/-- A concrete model with the skeleton `load_model` produces for vgg16
with hidden width 7, but trained parameter values. -/
def mTrained : Model :=
  { arch := "vgg16"
  , features := [("features.0.weight", ⟨[9, 8], false⟩)]
  , classifier := { layers := classifierSpec 25088 7
                  , params := classifierParamNames.map (fun n => (n, ⟨[3], true⟩)) }
  , class_to_idx := none
  , device := .cpu }

/-!
Helper lemmas for the master run characterization.
-/

theorem catMap_append (f : Nat → List Ev) (l₁ l₂ : List Nat) :
    catMap f (l₁ ++ l₂) = catMap f l₁ ++ catMap f l₂ := by
  induction l₁ with
  | nil => simp [catMap]
  | cons i is ih => simp [catMap, ih, List.append_assoc]

theorem catMap_congr {f g : Nat → List Ev} {l : List Nat}
    (h : ∀ i ∈ l, f i = g i) : catMap f l = catMap g l := by
  induction l with
  | nil => rfl
  | cons i is ih =>
    simp only [catMap]
    rw [h i (by simp), ih (fun j hj => h j (by simp [hj]))]

theorem validationPass_go (l : List ValBatch) (a b : ℚ) :
    l.foldl (fun acc bt => (acc.1 + bt.loss, acc.2 + batchAccuracy bt)) (a, b)
      = (a + (l.map ValBatch.loss).sum, b + (l.map batchAccuracy).sum) := by
  induction l generalizing a b with
  | nil => simp
  | cons x xs ih => simp [ih, add_assoc]

theorem validationPass_eq (valB : List ValBatch) :
    validationPass valB
      = ((valB.map ValBatch.loss).sum, (valB.map batchAccuracy).sum) := by
  simpa using validationPass_go valB 0 0

theorem runBatches_append (epochs : Nat) (valB : List ValBatch)
    (l₁ l₂ : List (Nat × ℚ)) (s : St) :
    runBatches epochs valB (l₁ ++ l₂) s =
      match runBatches epochs valB l₁ s with
      | .error e => .error e
      | .ok s' => runBatches epochs valB l₂ s' := by
  induction l₁ generalizing s with
  | nil => simp [runBatches]
  | cons b rest ih =>
    simp only [List.cons_append, runBatches]
    cases trainBatch epochs valB b.1 b.2 s with
    | error e => rfl
    | ok s' => exact ih s'

theorem runEpochs_eq_flat (epochs : Nat) (losses : Nat → List ℚ)
    (valB : List ValBatch) (es : List Nat) (s : St) :
    runEpochs epochs losses valB es s =
      runBatches epochs valB
        (es.flatMap (fun e => (losses e).map (fun l => (e, l)))) s := by
  induction es generalizing s with
  | nil => simp [runEpochs, runBatches]
  | cons e rest ih =>
    simp only [runEpochs, List.flatMap_cons, runBatches_append]
    cases runBatches epochs valB ((losses e).map (fun l => (e, l))) s with
    | error err => rfl
    | ok s' => exact ih s'

theorem train_model_eq_flat (epochs : Nat) (losses : Nat → List ℚ)
    (valB : List ValBatch) :
    train_model epochs losses valB =
      runBatches epochs valB (labeledFlat epochs losses) initSt :=
  runEpochs_eq_flat epochs losses valB (List.range epochs) initSt

theorem getD_append_left {l₁ l₂ : List (Nat × ℚ)} {i : Nat}
    (h : i < l₁.length) (d : Nat × ℚ) :
    (l₁ ++ l₂).getD i d = l₁.getD i d := by
  simp [List.getD_eq_getElem?_getD, List.getElem?_append_left h]

theorem getD_concat_length (l : List (Nat × ℚ)) (x d : Nat × ℚ) :
    (l ++ [x]).getD l.length d = x := by
  simp [List.getD_eq_getElem?_getD, List.getElem?_concat_length]

theorem expectedReport_concat (epochs : Nat) (valB : List ValBatch)
    (all : List (Nat × ℚ)) (x : Nat × ℚ) (k : Nat)
    (h : 5 * k + 5 ≤ all.length) :
    expectedReport epochs valB (all ++ [x]) k
      = expectedReport epochs valB all k := by
  unfold expectedReport
  have h1 : (all ++ [x]).getD (5 * k + 4) (0, 0) = all.getD (5 * k + 4) (0, 0) :=
    getD_append_left (by omega) _
  have h2 : ((all ++ [x]).map Prod.snd).drop (5 * k)
      = (all.map Prod.snd).drop (5 * k) ++ [x.2] := by
    rw [List.map_append, List.drop_append_of_le_length (by simp; omega)]
    simp
  have h3 : ((all.map Prod.snd).drop (5 * k) ++ [x.2]).take 5
      = ((all.map Prod.snd).drop (5 * k)).take 5 := by
    apply List.take_append_of_le_length
    simp
    omega
  rw [h1, h2, h3]

theorem stepEvs_concat (epochs : Nat) (valB : List ValBatch)
    (all : List (Nat × ℚ)) (x : Nat × ℚ) (i : Nat) (h : i < all.length) :
    stepEvs epochs valB (all ++ [x]) i = stepEvs epochs valB all i := by
  unfold stepEvs
  rw [getD_append_left h]
  by_cases ht : (i + 1) % 5 = 0
  · have hdvd : 5 ∣ i + 1 := Nat.dvd_of_mod_eq_zero ht
    have hq : 5 * ((i + 1) / 5) = i + 1 := Nat.mul_div_cancel' hdvd
    rw [expectedReport_concat epochs valB all x ((i + 1) / 5 - 1) (by omega)]
  · simp [ht]

theorem mkTrace_concat (epochs : Nat) (valB : List ValBatch)
    (all : List (Nat × ℚ)) (x : Nat × ℚ) :
    mkTrace epochs valB (all ++ [x])
      = mkTrace epochs valB all ++ stepEvs epochs valB (all ++ [x]) all.length := by
  unfold mkTrace
  have hlen : (all ++ [x]).length = all.length + 1 := by simp
  rw [hlen, List.range_succ, catMap_append]
  simp only [catMap, List.append_nil]
  congr 1
  exact catMap_congr (fun i hi =>
    stepEvs_concat epochs valB all x i (List.mem_range.mp hi))

/-!
Master characterization of the training loop.
-/

theorem trainBatch_finalSt (epochs : Nat) (valB : List ValBatch)
    (hk : valB.length ≠ 0) (all : List (Nat × ℚ)) (e : Nat) (l : ℚ) :
    trainBatch epochs valB e l (finalSt epochs valB all)
      = .ok (finalSt epochs valB (all ++ [(e, l)])) := by
  have hstep : stepEvs epochs valB (all ++ [(e, l)]) all.length
      = Ev.step e ::
        (if (all.length + 1) % 5 = 0 then
          valBlock valB.length
            (expectedReport epochs valB (all ++ [(e, l)]) ((all.length + 1) / 5 - 1))
        else []) := by
    unfold stepEvs
    rw [getD_concat_length]
  by_cases h : (all.length + 1) % 5 = 0
  · -- trigger case
    have hdvd : 5 ∣ all.length + 1 := Nat.dvd_of_mod_eq_zero h
    have hq : 5 * ((all.length + 1) / 5) = all.length + 1 := Nat.mul_div_cancel' hdvd
    have hq1 : (all.length + 1) / 5 = all.length / 5 + 1 := Nat.succ_div_of_dvd hdvd
    have hmod : all.length % 5 = 4 := by omega
    have hn4 : 5 * (all.length / 5) = all.length - 4 := by omega
    have hrep : expectedReport epochs valB (all ++ [(e, l)]) ((all.length + 1) / 5 - 1)
        = { epoch := e + 1, totalEpochs := epochs
          , trainLoss := (tailSum all + l) / 5
          , testLoss := (valB.map ValBatch.loss).sum / valB.length
          , accuracy := (valB.map batchAccuracy).sum / valB.length } := by
      unfold expectedReport
      have hidx : 5 * ((all.length + 1) / 5 - 1) + 4 = all.length := by omega
      have hgd : (all ++ [(e, l)]).getD (5 * ((all.length + 1) / 5 - 1) + 4) (0, 0)
          = (e, l) := by rw [hidx]; exact getD_concat_length all (e, l) (0, 0)
      have hk1 : (all.length + 1) / 5 - 1 = all.length / 5 := by omega
      have hdrop : ((all ++ [(e, l)]).map Prod.snd).drop (5 * ((all.length + 1) / 5 - 1))
          = (all.map Prod.snd).drop (5 * (all.length / 5)) ++ [l] := by
        rw [hk1, List.map_append,
          List.drop_append_of_le_length (by simp; omega)]
        simp
      have htake : ((all.map Prod.snd).drop (5 * (all.length / 5)) ++ [l]).take 5
          = (all.map Prod.snd).drop (5 * (all.length / 5)) ++ [l] :=
        List.take_of_length_le (by simp; omega)
      rw [hgd, hdrop, htake]
      unfold tailSum
      simp
    have htail : tailSum (all ++ [(e, l)]) = 0 := by
      unfold tailSum
      have h5 : 5 * ((all ++ [(e, l)]).length / 5) = (all ++ [(e, l)]).length := by
        simp only [List.length_append, List.length_singleton]
        omega
      rw [h5, List.drop_of_length_le (by simp)]
      simp
    unfold trainBatch finalSt
    simp only [h, if_true, hk, if_false, validationPass_eq]
    rw [mkTrace_concat, hstep, if_pos h, hrep, htail]
    simp [List.append_assoc]
  · -- no trigger: accumulate into running_loss only
    have hnd : ¬ 5 ∣ all.length + 1 := by omega
    have hq1 : (all.length + 1) / 5 = all.length / 5 := Nat.succ_div_of_not_dvd hnd
    have htail : tailSum (all ++ [(e, l)]) = tailSum all + l := by
      unfold tailSum
      simp only [List.length_append, List.length_singleton, List.map_append,
        List.map_cons, List.map_nil, hq1]
      rw [List.drop_append_of_le_length (by simp; omega)]
      simp
    unfold trainBatch finalSt
    simp only [h, if_false]
    rw [mkTrace_concat, hstep, if_neg h, htail]
    simp

theorem runBatches_finalSt (epochs : Nat) (valB : List ValBatch)
    (hk : valB.length ≠ 0) (rest : List (Nat × ℚ)) :
    ∀ all₀ : List (Nat × ℚ),
      runBatches epochs valB rest (finalSt epochs valB all₀)
        = .ok (finalSt epochs valB (all₀ ++ rest)) := by
  induction rest with
  | nil => intro all₀; simp [runBatches]
  | cons b r ih =>
    intro all₀
    have hb : trainBatch epochs valB b.1 b.2 (finalSt epochs valB all₀)
        = .ok (finalSt epochs valB (all₀ ++ [b])) := by
      have := trainBatch_finalSt epochs valB hk all₀ b.1 b.2
      simpa using this
    simp only [runBatches, hb]
    rw [ih (all₀ ++ [b])]
    simp

theorem initSt_eq_finalSt (epochs : Nat) (valB : List ValBatch) :
    initSt = finalSt epochs valB [] := by
  unfold initSt finalSt tailSum mkTrace
  simp [catMap]

/-- The master theorem: with a nonempty validation source, a run over the
flattened batch sequence `all` succeeds and its final state is completely
characterized — `steps` counts every batch of every epoch, `running_loss`
holds the criterion values after the last multiple-of-5 step, and the
event trace is `mkTrace`. -/
theorem train_model_master (epochs : Nat) (losses : Nat → List ℚ)
    (valB : List ValBatch) (hk : valB.length ≠ 0) :
    train_model epochs losses valB
      = .ok (finalSt epochs valB (labeledFlat epochs losses)) := by
  rw [train_model_eq_flat, initSt_eq_finalSt epochs valB]
  have := runBatches_finalSt epochs valB hk (labeledFlat epochs losses) []
  simpa using this

/-!
Reading reports and trigger positions off the predicted trace.
-/

theorem reportsOf_append (a b : List Ev) :
    reportsOf (a ++ b) = reportsOf a ++ reportsOf b := by
  unfold reportsOf
  exact List.filterMap_append a b _

theorem reportsOf_replicate_valBatch (k : Nat) :
    reportsOf (List.replicate k Ev.valBatch) = [] := by
  induction k with
  | zero => rfl
  | succ n ih =>
    simp only [List.replicate_succ, reportsOf, List.filterMap_cons]
    simp only [reportsOf] at ih
    exact ih

theorem reportsOf_valBlock (k : Nat) (r : Report) :
    reportsOf (valBlock k r) = [r] := by
  unfold valBlock
  rw [show (Ev.evalMode :: Ev.noGrad ::
      (List.replicate k Ev.valBatch ++ [Ev.report r, Ev.resetRL, Ev.trainMode]))
    = ([Ev.evalMode, Ev.noGrad] ++ List.replicate k Ev.valBatch)
      ++ [Ev.report r, Ev.resetRL, Ev.trainMode] by simp]
  rw [reportsOf_append, reportsOf_append, reportsOf_replicate_valBatch]
  rfl

theorem reportsOf_stepEvs (epochs : Nat) (valB : List ValBatch)
    (all : List (Nat × ℚ)) (i : Nat) :
    reportsOf (stepEvs epochs valB all i)
      = if (i + 1) % 5 = 0 then
          [expectedReport epochs valB all ((i + 1) / 5 - 1)]
        else [] := by
  unfold stepEvs
  by_cases h : (i + 1) % 5 = 0
  · rw [if_pos h, if_pos h,
      show (Ev.step (all.getD i (0, 0)).1 ::
        valBlock valB.length (expectedReport epochs valB all ((i + 1) / 5 - 1)))
        = [Ev.step (all.getD i (0, 0)).1] ++
            valBlock valB.length (expectedReport epochs valB all ((i + 1) / 5 - 1))
        by simp]
    rw [reportsOf_append, reportsOf_valBlock]
    rfl
  · rw [if_neg h, if_neg h]
    rfl

theorem reportsOf_catMap_range (epochs : Nat) (valB : List ValBatch)
    (all : List (Nat × ℚ)) (m : Nat) :
    reportsOf (catMap (stepEvs epochs valB all) (List.range m))
      = (List.range (m / 5)).map (expectedReport epochs valB all) := by
  induction m with
  | zero => rfl
  | succ n ih =>
    rw [List.range_succ, catMap_append, reportsOf_append, ih]
    simp only [catMap, List.append_nil]
    rw [reportsOf_stepEvs]
    by_cases h : (n + 1) % 5 = 0
    · have hdvd : 5 ∣ n + 1 := Nat.dvd_of_mod_eq_zero h
      have hq1 : (n + 1) / 5 = n / 5 + 1 := Nat.succ_div_of_dvd hdvd
      rw [if_pos h, hq1, List.range_succ, List.map_append]
      simp
    · have hnd : ¬ 5 ∣ n + 1 := by omega
      rw [if_neg h, Nat.succ_div_of_not_dvd hnd]
      simp

/-- The reports of a predicted trace are exactly the expected reports, one
per multiple-of-5 step. -/
theorem reportsOf_mkTrace (epochs : Nat) (valB : List ValBatch)
    (all : List (Nat × ℚ)) :
    reportsOf (mkTrace epochs valB all)
      = (List.range (all.length / 5)).map (expectedReport epochs valB all) :=
  reportsOf_catMap_range epochs valB all all.length

theorem trigG_append (a b : List Ev) (c : Nat) :
    trigG (a ++ b) c = trigG a c ++ trigG b (c + nSteps a) := by
  induction a generalizing c with
  | nil => simp [trigG, nSteps]
  | cons x r ih =>
    cases x with
    | step e =>
      simp only [List.cons_append, trigG, nSteps, List.countP_cons, List.append_eq]
      rw [ih (c + 1)]
      congr 2
      simp only [nSteps, if_true]
      omega
    | report rp =>
      simp only [List.cons_append, trigG, nSteps, List.countP_cons, List.append_eq]
      rw [ih c]
      simp [nSteps]
    | evalMode =>
      simp only [List.cons_append, trigG, nSteps, List.countP_cons, List.append_eq]
      rw [ih c]
      simp [nSteps]
    | noGrad =>
      simp only [List.cons_append, trigG, nSteps, List.countP_cons, List.append_eq]
      rw [ih c]
      simp [nSteps]
    | valBatch =>
      simp only [List.cons_append, trigG, nSteps, List.countP_cons, List.append_eq]
      rw [ih c]
      simp [nSteps]
    | resetRL =>
      simp only [List.cons_append, trigG, nSteps, List.countP_cons, List.append_eq]
      rw [ih c]
      simp [nSteps]
    | trainMode =>
      simp only [List.cons_append, trigG, nSteps, List.countP_cons, List.append_eq]
      rw [ih c]
      simp [nSteps]

theorem trigG_replicate_valBatch (k : Nat) (rest : List Ev) (c : Nat) :
    trigG (List.replicate k Ev.valBatch ++ rest) c = trigG rest c := by
  induction k with
  | zero => rfl
  | succ n ih => simpa [List.replicate_succ, trigG] using ih

theorem trigG_valBlock (k : Nat) (r : Report) (c : Nat) :
    trigG (valBlock k r) c = [c] := by
  unfold valBlock
  simp only [trigG]
  rw [trigG_replicate_valBatch]
  rfl

theorem nSteps_valBlock (k : Nat) (r : Report) : nSteps (valBlock k r) = 0 := by
  unfold valBlock nSteps
  simp [List.countP_append, List.countP_replicate]

theorem nSteps_stepEvs (epochs : Nat) (valB : List ValBatch)
    (all : List (Nat × ℚ)) (i : Nat) :
    nSteps (stepEvs epochs valB all i) = 1 := by
  unfold stepEvs
  by_cases h : (i + 1) % 5 = 0
  · rw [if_pos h]
    have := nSteps_valBlock valB.length
      (expectedReport epochs valB all ((i + 1) / 5 - 1))
    simp only [nSteps, List.countP_cons] at *
    simp [this]
  · rw [if_neg h]
    rfl

theorem nSteps_catMap_range (epochs : Nat) (valB : List ValBatch)
    (all : List (Nat × ℚ)) (m : Nat) :
    nSteps (catMap (stepEvs epochs valB all) (List.range m)) = m := by
  induction m with
  | zero => rfl
  | succ n ih =>
    rw [List.range_succ, catMap_append]
    simp only [nSteps, List.countP_append] at *
    rw [ih]
    simp only [catMap, List.countP_append]
    have := nSteps_stepEvs epochs valB all n
    simp only [nSteps] at this
    simp [this]

theorem trigG_stepEvs (epochs : Nat) (valB : List ValBatch)
    (all : List (Nat × ℚ)) (i c : Nat) :
    trigG (stepEvs epochs valB all i) c
      = if (i + 1) % 5 = 0 then [c + 1] else [] := by
  unfold stepEvs
  by_cases h : (i + 1) % 5 = 0
  · rw [if_pos h, if_pos h]
    simp only [trigG]
    exact trigG_valBlock _ _ _
  · rw [if_neg h, if_neg h]
    rfl

theorem trigG_catMap_range (epochs : Nat) (valB : List ValBatch)
    (all : List (Nat × ℚ)) (m : Nat) :
    trigG (catMap (stepEvs epochs valB all) (List.range m)) 0
      = (List.range (m / 5)).map (fun k => 5 * (k + 1)) := by
  induction m with
  | zero => rfl
  | succ n ih =>
    rw [List.range_succ, catMap_append, trigG_append, ih,
      nSteps_catMap_range epochs valB all n]
    simp only [catMap, List.append_nil]
    rw [trigG_stepEvs]
    by_cases h : (n + 1) % 5 = 0
    · have hdvd : 5 ∣ n + 1 := Nat.dvd_of_mod_eq_zero h
      have hq : 5 * ((n + 1) / 5) = n + 1 := Nat.mul_div_cancel' hdvd
      have hq1 : (n + 1) / 5 = n / 5 + 1 := Nat.succ_div_of_dvd hdvd
      rw [if_pos h, hq1, List.range_succ, List.map_append]
      simp only [List.map_cons, List.map_nil]
      have : 5 * (n / 5 + 1) = 0 + n + 1 := by omega
      rw [this]
    · have hnd : ¬ 5 ∣ n + 1 := by omega
      rw [if_neg h, Nat.succ_div_of_not_dvd hnd]
      simp

/-- Reports occur in a predicted trace exactly at the global step counts
5, 10, ..., 5 * (number of batches / 5). -/
theorem trigG_mkTrace (epochs : Nat) (valB : List ValBatch)
    (all : List (Nat × ℚ)) :
    trigG (mkTrace epochs valB all) 0
      = (List.range (all.length / 5)).map (fun k => 5 * (k + 1)) :=
  trigG_catMap_range epochs valB all all.length

theorem nValBatches_valBlock (k : Nat) (r : Report) :
    nValBatches (valBlock k r) = k := by
  unfold valBlock nValBatches
  simp [List.countP_append, List.countP_replicate]

theorem nValBatches_stepEvs (epochs : Nat) (valB : List ValBatch)
    (all : List (Nat × ℚ)) (i : Nat) :
    nValBatches (stepEvs epochs valB all i)
      = if (i + 1) % 5 = 0 then valB.length else 0 := by
  unfold stepEvs
  by_cases h : (i + 1) % 5 = 0
  · rw [if_pos h, if_pos h]
    have := nValBatches_valBlock valB.length
      (expectedReport epochs valB all ((i + 1) / 5 - 1))
    simp only [nValBatches, List.countP_cons] at *
    simp [this]
  · rw [if_neg h, if_neg h]
    rfl

theorem nValBatches_catMap_range (epochs : Nat) (valB : List ValBatch)
    (all : List (Nat × ℚ)) (m : Nat) :
    nValBatches (catMap (stepEvs epochs valB all) (List.range m))
      = (m / 5) * valB.length := by
  induction m with
  | zero => simp [catMap, nValBatches]
  | succ n ih =>
    rw [List.range_succ, catMap_append]
    simp only [nValBatches, List.countP_append] at *
    rw [ih]
    simp only [catMap, List.countP_append, List.countP_nil]
    have hs := nValBatches_stepEvs epochs valB all n
    simp only [nValBatches] at hs
    rw [hs]
    by_cases h : (n + 1) % 5 = 0
    · have hdvd : 5 ∣ n + 1 := Nat.dvd_of_mod_eq_zero h
      rw [if_pos h, Nat.succ_div_of_dvd hdvd]
      ring
    · have hnd : ¬ 5 ∣ n + 1 := by omega
      rw [if_neg h, Nat.succ_div_of_not_dvd hnd]
      simp

/-- Every trigger of a predicted trace performs one full pass over the
validation source: the trace holds exactly (number of triggers) * (number
of validation batches) validation-batch events. -/
theorem nValBatches_mkTrace (epochs : Nat) (valB : List ValBatch)
    (all : List (Nat × ℚ)) :
    nValBatches (mkTrace epochs valB all) = (all.length / 5) * valB.length :=
  nValBatches_catMap_range epochs valB all all.length

/-- With an empty validation source, the run aborts with the
division-by-zero error as soon as some step reaches a multiple of 5. -/
theorem runBatches_emptyVal (epochs : Nat) (rest : List (Nat × ℚ)) :
    ∀ s : St, (∃ j, j < rest.length ∧ (s.steps + j + 1) % 5 = 0) →
      runBatches epochs [] rest s = .error .divByZero := by
  induction rest with
  | nil =>
    intro s hex
    obtain ⟨j, hj, _⟩ := hex
    exact absurd hj (by simp)
  | cons b r ih =>
    intro s hex
    obtain ⟨j, hj, hmod⟩ := hex
    by_cases h : (s.steps + 1) % 5 = 0
    · have hb : trainBatch epochs [] b.1 b.2 s = .error .divByZero := by
        unfold trainBatch
        simp [h]
      simp only [runBatches, hb]
    · have hj0 : j ≠ 0 := by
        intro h0
        rw [h0] at hmod
        exact h (by omega)
      have hb : trainBatch epochs [] b.1 b.2 s
          = .ok ⟨s.steps + 1, s.running_loss + b.2, s.events ++ [Ev.step b.1]⟩ := by
        unfold trainBatch
        simp [h]
      simp only [runBatches, hb]
      apply ih
      refine ⟨j - 1, ?_, ?_⟩
      · simp only [List.length_cons] at hj
        omega
      · show (s.steps + 1 + (j - 1) + 1) % 5 = 0
        omega

/-!
Claim theorems.
-/

/-- C2: every call to Save with a nonempty dataset list produces exactly
the ten-field Checkpoint of §3 — architecture name, input_size,
output_size, learning_rate, hidden_units, full head definition, epochs,
parameter values, class_to_idx and optimizer state — and, as a side
effect before serializing, attaches `class_to_idx` from the training image
source onto the model. -/
theorem save_checkpoint_fields (model : Model) (d : Dataset)
    (ds : List Dataset) (epochs : Nat) (optimizer : Optimizer)
    (learning_rate : ℚ) (input_size output_size : Nat) (arch : String)
    (hidden_units : Nat) :
    save_checkpoint model (d :: ds) epochs optimizer learning_rate
        input_size output_size arch hidden_units
      = some ({ model with class_to_idx := some d.class_to_idx },
          { pretrained_model := arch
          , input_size := input_size
          , output_size := output_size
          , learning_rate := learning_rate
          , hidden_units := hidden_units
          , classifier := model.classifier
          , epochs := epochs
          , state_dict :=
              Model.state_dict { model with class_to_idx := some d.class_to_idx }
          , class_to_idx := d.class_to_idx
          , optimizer := optimizer.state_dict }) := rfl

/-- C4: for positive input and hidden widths, the head builder produces
exactly the fixed topology fc1: linear(input→hidden), relu, fc2:
linear(hidden→hidden), relu, fc3: linear(hidden→102), log-softmax, in this
order with these names, independently of the random parameter
initialization. -/
theorem classifier_head_topology (input_width hidden_width : Nat)
    (_hi : 0 < input_width) (_hh : 0 < hidden_width)
    (init init' : String → Tensor) :
    (buildClassifier input_width hidden_width init).layers
      = [ LayerSpec.linear "fc1" input_width hidden_width
        , LayerSpec.relu "relu1"
        , LayerSpec.linear "fc2" hidden_width hidden_width
        , LayerSpec.relu "relu2"
        , LayerSpec.linear "fc3" hidden_width 102
        , LayerSpec.logSoftmax "output" 1 ] ∧
    (buildClassifier input_width hidden_width init).layers
      = (buildClassifier input_width hidden_width init').layers :=
  ⟨rfl, rfl⟩

/-- Witness for C4 at input width 25088 and hidden width 512. -/
theorem classifier_head_topology_witness :
    (0 < 25088 ∧ 0 < 512) ∧
    ((buildClassifier 25088 512 init0).layers
      = [ LayerSpec.linear "fc1" 25088 512
        , LayerSpec.relu "relu1"
        , LayerSpec.linear "fc2" 512 512
        , LayerSpec.relu "relu2"
        , LayerSpec.linear "fc3" 512 102
        , LayerSpec.logSoftmax "output" 1 ] ∧
    (buildClassifier 25088 512 init0).layers
      = (buildClassifier 25088 512 (fun _ => [1])).layers) :=
  ⟨⟨by decide, by decide⟩,
   classifier_head_topology 25088 512 (by decide) (by decide) init0 (fun _ => [1])⟩

/-- C8: whenever the gpu flag requests the accelerator and none is
available, assembly fails with `DeviceUnavailable` (the torch error of
`model.to` on an unavailable cuda device), surfaced to the caller — there
is no automatic downgrade to cpu. -/
theorem accelerator_unavailable (hub : Hub) (arch : String)
    (hidden_units : Nat) (init : String → Tensor) :
    load_model hub false arch hidden_units true init
      = .error .DeviceUnavailable := by
  unfold load_model moveTo
  simp

/-- C7 counterexample: the architecture dispatch of `load_model`
(train.py lines 34-39) does NOT fail for the unsupported name
`"resnet50"`: it returns the densenet121 backbone with feature width
1024, because every name other than `"vgg16"` takes the `else` branch. -/
theorem unsupported_arch_counterexample :
    (load_model hub0 true "resnet50" 4 false init0).toOption.map
        (fun r => (r.1.arch, r.2.2))
      = some ("densenet121", 1024) := by decide

/-- C7 amended: unsupported architecture names are rejected by the CLI
layer (argparse `choices` on `--arch`, train.py line 18), not by the
model-assembly dispatch: for a name outside the two choices, parsing
fails, while `load_model` itself would happily return the densenet121
backbone (feature width 1024) for any name other than `"vgg16"`. -/
theorem arch_dispatch (s : String) (hnv : s ∉ archChoices) :
    parseArch s = .error .invalidChoice ∧
    ∀ (hub : Hub) (ca : Bool) (hidden_units : Nat) (init : String → Tensor),
      load_model hub ca s hidden_units false init
        = .ok ({ freezeAll hub.densenet121 with
            classifier := buildClassifier 1024 hidden_units init
            device := Device.cpu }, Device.cpu, 1024) := by
  have hne : s ≠ "vgg16" := by
    intro h
    exact hnv (by rw [h]; unfold archChoices; simp)
  constructor
  · unfold parseArch
    rw [if_neg hnv]
  · intro hub ca hidden_units init
    unfold load_model moveTo
    simp [hne]

/-- Witness for C7's amended claim at the unsupported name resnet50. -/
theorem arch_dispatch_witness :
    "resnet50" ∉ archChoices ∧
    (parseArch "resnet50" = .error .invalidChoice ∧
     ∀ (hub : Hub) (ca : Bool) (hidden_units : Nat) (init : String → Tensor),
       load_model hub ca "resnet50" hidden_units false init
         = .ok ({ freezeAll hub.densenet121 with
             classifier := buildClassifier 1024 hidden_units init
             device := Device.cpu }, Device.cpu, 1024)) :=
  ⟨by decide, arch_dispatch "resnet50" (by decide)⟩

theorem filter_rg_of_map_false (l : List (String × ParamT)) :
    (l.map (fun p => (p.1, (⟨p.2.data, false⟩ : ParamT)))).filter
      (fun p => p.2.requires_grad) = [] := by
  induction l with
  | nil => rfl
  | cons x r ih => simpa [List.filter] using ih

theorem filter_rg_buildClassifier (numIn hidden : Nat) (init : String → Tensor) :
    (buildClassifier numIn hidden init).params.filter
        (fun p => p.2.requires_grad)
      = (buildClassifier numIn hidden init).params := by
  unfold buildClassifier classifierParamNames
  simp [List.filter]

/-- Inversion of a successful `load_model` call: the returned model is the
frozen backbone with the fresh head attached, and the feature width is the
fixed width of the chosen backbone. -/
theorem load_model_ok (hub : Hub) (ca : Bool) (arch : String) (hidden : Nat)
    (gpu : Bool) (init : String → Tensor) (m : Model) (dev : Device)
    (numIn : Nat)
    (hload : load_model hub ca arch hidden gpu init = .ok (m, dev, numIn)) :
    m.features
      = ((if arch = "vgg16" then hub.vgg16 else hub.densenet121).features).map
          (fun p => (p.1, (⟨p.2.data, false⟩ : ParamT))) ∧
    m.classifier
      = buildClassifier (if arch = "vgg16" then 25088 else 1024) hidden init ∧
    numIn = (if arch = "vgg16" then 25088 else 1024) ∧
    m.arch = (if arch = "vgg16" then hub.vgg16 else hub.densenet121).arch ∧
    m.class_to_idx
      = (if arch = "vgg16" then hub.vgg16 else hub.densenet121).class_to_idx := by
  by_cases harch : arch = "vgg16" <;>
    by_cases hg : gpu <;>
      by_cases hca : ca <;>
        (unfold load_model moveTo at hload
         simp [harch, hg, hca] at hload) <;>
    (obtain ⟨hm, hd, hn⟩ := hload
     subst hm
     subst hn
     simp [freezeAll, harch])

/-- C3: for every supported architecture and positive hidden width, after
assembly exactly the classifier head's parameters are trainable — every
backbone parameter carries `requires_grad = false`, every head parameter
carries `requires_grad = true`, the model's trainable-parameter list is
exactly the head's parameter list — and the Adam optimizer of `main`
(train.py line 156) is constructed over the head's parameters only. -/
theorem assembly_trainable_partition (hub : Hub) (arch : String)
    (hidden_units : Nat) (gpu cudaAvailable : Bool) (init : String → Tensor)
    (lr : ℚ) (m : Model) (dev : Device) (numIn : Nat)
    (_hsup : arch = "vgg16" ∨ arch = "densenet121") (_hpos : 0 < hidden_units)
    (hload : load_model hub cudaAvailable arch hidden_units gpu init
      = .ok (m, dev, numIn)) :
    (∀ p ∈ m.features, p.2.requires_grad = false) ∧
    (∀ p ∈ m.classifier.params, p.2.requires_grad = true) ∧
    m.trainableParams = m.classifier.params ∧
    (mkAdam (m.classifier.params.map Prod.fst) lr).param_names
      = m.classifier.params.map Prod.fst := by
  obtain ⟨hf, hc, hn, _, _⟩ :=
    load_model_ok hub cudaAvailable arch hidden_units gpu init m dev numIn hload
  refine ⟨?_, ?_, ?_, rfl⟩
  · intro p hp
    rw [hf] at hp
    obtain ⟨q, _, rfl⟩ := List.mem_map.mp hp
    rfl
  · intro p hp
    rw [hc] at hp
    unfold buildClassifier at hp
    obtain ⟨n, _, rfl⟩ := List.mem_map.mp hp
    rfl
  · unfold Model.trainableParams
    rw [hf, hc, filter_rg_of_map_false, filter_rg_buildClassifier]
    simp

/-- A concrete assembled model: vgg16 skeleton with hidden width 3. -/
theorem assembly_trainable_partition_witness :
    (("vgg16" = "vgg16" ∨ "vgg16" = "densenet121") ∧ 0 < 3 ∧
      load_model hub0 false "vgg16" 3 false init0
        = .ok ({ freezeAll vggM with
            classifier := buildClassifier 25088 3 init0
            device := Device.cpu }, Device.cpu, 25088)) ∧
    ((∀ p ∈ ({ freezeAll vggM with
          classifier := buildClassifier 25088 3 init0
          device := Device.cpu } : Model).features, p.2.requires_grad = false) ∧
     (∀ p ∈ ({ freezeAll vggM with
          classifier := buildClassifier 25088 3 init0
          device := Device.cpu } : Model).classifier.params,
        p.2.requires_grad = true) ∧
     ({ freezeAll vggM with
          classifier := buildClassifier 25088 3 init0
          device := Device.cpu } : Model).trainableParams
       = ({ freezeAll vggM with
          classifier := buildClassifier 25088 3 init0
          device := Device.cpu } : Model).classifier.params ∧
     (mkAdam (({ freezeAll vggM with
          classifier := buildClassifier 25088 3 init0
          device := Device.cpu } : Model).classifier.params.map Prod.fst)
        1).param_names
       = ({ freezeAll vggM with
          classifier := buildClassifier 25088 3 init0
          device := Device.cpu } : Model).classifier.params.map Prod.fst) :=
  ⟨⟨Or.inl rfl, by decide, rfl⟩,
   assembly_trainable_partition hub0 "vgg16" 3 false false init0 1 _
     Device.cpu 25088 (Or.inl rfl) (by decide) rfl⟩

/-- C6: with a nonempty validation source the run succeeds and its trace
is exactly `mkTrace`, whose validation blocks are, in order: set
evaluation mode, disable gradient tracking, process every batch of the
validation source, print the report, zero `running_loss`, restore training
mode; and the reports are exactly the expected ones — epoch index,
`running_loss` averaged over the last 5 steps, `test_loss` summed over all
validation batches and divided by their number, and top-1 accuracy
(argmax of the probability row versus the label, averaged per batch)
summed over all validation batches and divided by their number. -/
theorem validation_pass_report (epochs : Nat) (losses : Nat → List ℚ)
    (valB : List ValBatch) (hk : valB.length ≠ 0) :
    train_model epochs losses valB
      = .ok (finalSt epochs valB (labeledFlat epochs losses)) ∧
    reportsOf (mkTrace epochs valB (labeledFlat epochs losses))
      = (List.range ((labeledFlat epochs losses).length / 5)).map
          (expectedReport epochs valB (labeledFlat epochs losses)) :=
  ⟨train_model_master epochs losses valB hk,
   reportsOf_mkTrace epochs valB (labeledFlat epochs losses)⟩

/-- Witness for C6: one epoch of five unit-loss batches against the
one-batch validation source. -/
theorem validation_pass_report_witness :
    valB0.length ≠ 0 ∧
    (train_model 1 (fun _ => [1, 1, 1, 1, 1]) valB0
      = .ok (finalSt 1 valB0 (labeledFlat 1 (fun _ => [1, 1, 1, 1, 1]))) ∧
    reportsOf (mkTrace 1 valB0 (labeledFlat 1 (fun _ => [1, 1, 1, 1, 1])))
      = (List.range ((labeledFlat 1 (fun _ => [1, 1, 1, 1, 1])).length / 5)).map
          (expectedReport 1 valB0 (labeledFlat 1 (fun _ => [1, 1, 1, 1, 1])))) :=
  ⟨by decide, validation_pass_report 1 (fun _ => [1, 1, 1, 1, 1]) valB0 (by decide)⟩

/-- C9: the step counter and `running_loss` are global to the whole run —
never reset at an epoch boundary.  The run ends with `steps` equal to the
total number of batches over all epochs; reports occur exactly at the
global step counts 5, 10, ..., so in-epoch trigger positions are
determined by the batch totals of all preceding epochs; the final
`running_loss` holds exactly the criterion values after the last
multiple-of-5 step, and no report accounts for them (there are exactly
total/5 reports, each covering one disjoint 5-step chunk). -/
theorem global_step_cadence (epochs : Nat) (losses : Nat → List ℚ)
    (valB : List ValBatch) (hk : valB.length ≠ 0) :
    ∃ s : St, train_model epochs losses valB = .ok s ∧
      s.steps = (labeledFlat epochs losses).length ∧
      s.running_loss
        = (((labeledFlat epochs losses).map Prod.snd).drop
            (5 * ((labeledFlat epochs losses).length / 5))).sum ∧
      trigG s.events 0
        = (List.range ((labeledFlat epochs losses).length / 5)).map
            (fun k => 5 * (k + 1)) ∧
      (reportsOf s.events).length = (labeledFlat epochs losses).length / 5 := by
  refine ⟨finalSt epochs valB (labeledFlat epochs losses),
    train_model_master epochs losses valB hk, rfl, rfl, ?_, ?_⟩
  · exact trigG_mkTrace epochs valB (labeledFlat epochs losses)
  · show (reportsOf (mkTrace epochs valB (labeledFlat epochs losses))).length = _
    rw [reportsOf_mkTrace]
    simp

/-- Witness for C9: two epochs of three unit-loss batches each. -/
theorem global_step_cadence_witness :
    valB0.length ≠ 0 ∧
    (∃ s : St, train_model 2 (fun _ => [1, 1, 1]) valB0 = .ok s ∧
      s.steps = (labeledFlat 2 (fun _ => [1, 1, 1])).length ∧
      s.running_loss
        = (((labeledFlat 2 (fun _ => [1, 1, 1])).map Prod.snd).drop
            (5 * ((labeledFlat 2 (fun _ => [1, 1, 1])).length / 5))).sum ∧
      trigG s.events 0
        = (List.range ((labeledFlat 2 (fun _ => [1, 1, 1])).length / 5)).map
            (fun k => 5 * (k + 1)) ∧
      (reportsOf s.events).length
        = (labeledFlat 2 (fun _ => [1, 1, 1])).length / 5) :=
  ⟨by decide, global_step_cadence 2 (fun _ => [1, 1, 1]) valB0 (by decide)⟩

/-- C10: when the validation source yields zero batches, any run long
enough to reach a validation trigger (at least 5 batches in total) aborts
with the division-by-zero error of `test_loss / len(validateloader)`
instead of emitting a report. -/
theorem empty_validation_divByZero (epochs : Nat) (losses : Nat → List ℚ)
    (h5 : 5 ≤ (labeledFlat epochs losses).length) :
    train_model epochs losses [] = .error .divByZero := by
  rw [train_model_eq_flat]
  exact runBatches_emptyVal epochs _ initSt ⟨4, by omega, by decide⟩

/-- Witness for C10: one epoch of five batches and an empty validation
source. -/
theorem empty_validation_divByZero_witness :
    5 ≤ (labeledFlat 1 (fun _ => [1, 1, 1, 1, 1])).length ∧
    train_model 1 (fun _ => [1, 1, 1, 1, 1]) [] = .error .divByZero :=
  ⟨by decide, empty_validation_divByZero 1 (fun _ => [1, 1, 1, 1, 1]) (by decide)⟩

/-- C5 counterexample: in a 2-epoch run whose train source yields exactly
12 batches in EVERY epoch, the second epoch (which also yields exactly 12
batches) is validated after its in-epoch batches 3 and 8, not 5 and 10:
the step counter is global, so the triggers land at cumulative steps 15
and 20. -/
theorem cadence_counterexample :
    (losses12 1).length = 12 ∧
    (train_model 2 losses12 valB0).toOption.map
        (fun s => inEpochTriggers s.events none 0)
      = some [(0, 5), (0, 10), (1, 3), (1, 8)] := by
  constructor
  · decide
  · decide

/-- C5 amended: in the FIRST epoch of a run (cumulative step count
starting at zero), a train source yielding exactly 12 batches triggers
validation exactly twice, after batches 5 and 10; each trigger performs
one full pass over the validation source, and `running_loss` is reset to
zero immediately after each report.  (In later epochs triggers still come
every 5 cumulative steps, but their in-epoch positions are shifted by the
batch totals of the preceding epochs.) -/
theorem cadence_first_epoch (losses : Nat → List ℚ) (valB : List ValBatch)
    (hk : valB.length ≠ 0) (h12 : (losses 0).length = 12) :
    train_model 1 losses valB
      = .ok (finalSt 1 valB (labeledFlat 1 losses)) ∧
    trigG (mkTrace 1 valB (labeledFlat 1 losses)) 0 = [5, 10] ∧
    (reportsOf (mkTrace 1 valB (labeledFlat 1 losses))).length = 2 ∧
    nValBatches (mkTrace 1 valB (labeledFlat 1 losses)) = 2 * valB.length ∧
    runBatches 1 valB ((labeledFlat 1 losses).take 5) initSt
      = .ok (finalSt 1 valB ((labeledFlat 1 losses).take 5)) ∧
    (finalSt 1 valB ((labeledFlat 1 losses).take 5)).running_loss = 0 ∧
    runBatches 1 valB ((labeledFlat 1 losses).take 10) initSt
      = .ok (finalSt 1 valB ((labeledFlat 1 losses).take 10)) ∧
    (finalSt 1 valB ((labeledFlat 1 losses).take 10)).running_loss = 0 := by
  have hlen : (labeledFlat 1 losses).length = 12 := by
    simp [labeledFlat, h12]
    rw [show List.range 1 = [0] from rfl]
    simp [h12]
  refine ⟨train_model_master 1 losses valB hk, ?_, ?_, ?_, ?_, ?_, ?_, ?_⟩
  · rw [trigG_mkTrace, hlen]
    decide
  · rw [reportsOf_mkTrace, hlen]
    simp
  · rw [nValBatches_mkTrace, hlen]
  · have hr := runBatches_finalSt 1 valB hk ((labeledFlat 1 losses).take 5) []
    rw [initSt_eq_finalSt 1 valB]
    simpa using hr
  · show tailSum ((labeledFlat 1 losses).take 5) = 0
    have h5 : ((labeledFlat 1 losses).take 5).length = 5 := by
      rw [List.length_take, hlen]
      decide
    unfold tailSum
    rw [h5, List.drop_of_length_le (by simp [h5])]
    rfl
  · have hr := runBatches_finalSt 1 valB hk ((labeledFlat 1 losses).take 10) []
    rw [initSt_eq_finalSt 1 valB]
    simpa using hr
  · show tailSum ((labeledFlat 1 losses).take 10) = 0
    have h10 : ((labeledFlat 1 losses).take 10).length = 10 := by
      rw [List.length_take, hlen]
      decide
    unfold tailSum
    rw [h10, List.drop_of_length_le (by simp [h10])]
    rfl

/-- Witness for C5's amended claim: one epoch of 12 unit-loss batches. -/
theorem cadence_first_epoch_witness :
    (valB0.length ≠ 0 ∧ (losses12 0).length = 12) ∧
    (train_model 1 losses12 valB0
      = .ok (finalSt 1 valB0 (labeledFlat 1 losses12)) ∧
    trigG (mkTrace 1 valB0 (labeledFlat 1 losses12)) 0 = [5, 10] ∧
    (reportsOf (mkTrace 1 valB0 (labeledFlat 1 losses12))).length = 2 ∧
    nValBatches (mkTrace 1 valB0 (labeledFlat 1 losses12)) = 2 * valB0.length ∧
    runBatches 1 valB0 ((labeledFlat 1 losses12).take 5) initSt
      = .ok (finalSt 1 valB0 ((labeledFlat 1 losses12).take 5)) ∧
    (finalSt 1 valB0 ((labeledFlat 1 losses12).take 5)).running_loss = 0 ∧
    runBatches 1 valB0 ((labeledFlat 1 losses12).take 10) initSt
      = .ok (finalSt 1 valB0 ((labeledFlat 1 losses12).take 10)) ∧
    (finalSt 1 valB0 ((labeledFlat 1 losses12).take 10)).running_loss = 0) :=
  ⟨⟨by decide, by decide⟩, cadence_first_epoch losses12 valB0 (by decide) (by decide)⟩

theorem map_fst_freeze (l : List (String × ParamT)) :
    (l.map (fun p => (p.1, (⟨p.2.data, false⟩ : ParamT)))).map Prod.fst
      = l.map Prod.fst := by
  induction l with
  | nil => rfl
  | cons x r ih => simp [ih]

theorem map_fst_data (l : List (String × ParamT)) :
    (l.map (fun p => (p.1, p.2.data))).map Prod.fst = l.map Prod.fst := by
  induction l with
  | nil => rfl
  | cons x r ih => simp [ih]

theorem map_fst_names (g : String → ParamT) (names : List String) :
    (names.map (fun n => (n, g n))).map Prod.fst = names := by
  induction names with
  | nil => rfl
  | cons x r ih => simp [ih]

theorem sd_of_setData (ps : List (String × ParamT))
    (sd : List (String × Tensor)) (h : ps.map Prod.fst = sd.map Prod.fst) :
    (setData ps sd).map (fun p => (p.1, p.2.data)) = sd := by
  induction ps generalizing sd with
  | nil =>
    cases sd with
    | nil => rfl
    | cons y t => simp at h
  | cons x r ih =>
    cases sd with
    | nil => simp at h
    | cons y t =>
      simp only [List.map_cons, List.cons.injEq] at h
      obtain ⟨h1, h2⟩ := h
      have hr := ih t h2
      simp only [setData, List.zip_cons_cons, List.map_cons, List.cons.injEq] at hr ⊢
      exact ⟨Prod.ext h1 rfl, hr⟩

/-- Characterization of a successful `load_checkpoint`: when the stored
state-dict keys match the keys of the freshly rebuilt model (which is the
case for every checkpoint `save_checkpoint` writes for a model with the
assembler's skeleton), loading succeeds and returns a model whose backbone
is the registry's entry for the stored architecture name, whose head
topology is rebuilt from the stored hidden width, whose parameter values
are exactly the stored ones, whose `class_to_idx` is the stored one, and
an optimizer primed with the stored state. -/
theorem load_checkpoint_props (hub : Hub) (ckpt : Checkpoint)
    (init2 : String → Tensor)
    (hfeat : (if ckpt.pretrained_model = "vgg16" then hub.vgg16
        else hub.densenet121).features.map Prod.fst
      = ckpt.state_dict.features.map Prod.fst)
    (hcls : ckpt.state_dict.classifier.map Prod.fst = classifierParamNames) :
    ∃ mL optL,
      load_checkpoint hub ckpt init2 = .ok (mL, optL) ∧
      mL.arch = (if ckpt.pretrained_model = "vgg16" then hub.vgg16
        else hub.densenet121).arch ∧
      mL.classifier.layers
        = classifierSpec (if ckpt.pretrained_model = "vgg16" then 25088 else 1024)
            ckpt.hidden_units ∧
      mL.state_dict = ckpt.state_dict ∧
      mL.class_to_idx = some ckpt.class_to_idx ∧
      optL.state = ckpt.optimizer.state ∧
      optL.lr = ckpt.optimizer.lr := by
  have h1 : load_model hub true ckpt.pretrained_model ckpt.hidden_units false init2
      = .ok
        ({ freezeAll (if ckpt.pretrained_model = "vgg16" then (hub.vgg16, 25088)
              else (hub.densenet121, 1024)).1 with
           classifier := buildClassifier
             (if ckpt.pretrained_model = "vgg16" then (hub.vgg16, 25088)
              else (hub.densenet121, 1024)).2 ckpt.hidden_units init2
         , device := Device.cpu },
         Device.cpu,
         (if ckpt.pretrained_model = "vgg16" then (hub.vgg16, 25088)
          else (hub.densenet121, 1024)).2) := rfl
  have hpick1 : (if ckpt.pretrained_model = "vgg16" then (hub.vgg16, 25088)
      else (hub.densenet121, 1024)).1
      = (if ckpt.pretrained_model = "vgg16" then hub.vgg16 else hub.densenet121) := by
    by_cases hc : ckpt.pretrained_model = "vgg16" <;> simp [hc]
  have hpick2 : (if ckpt.pretrained_model = "vgg16" then (hub.vgg16, 25088)
      else (hub.densenet121, 1024)).2
      = (if ckpt.pretrained_model = "vgg16" then 25088 else 1024) := by
    by_cases hc : ckpt.pretrained_model = "vgg16" <;> simp [hc]
  rw [hpick1, hpick2] at h1
  have hcondf : (freezeAll (if ckpt.pretrained_model = "vgg16" then hub.vgg16
        else hub.densenet121)).features.map Prod.fst
      = ckpt.state_dict.features.map Prod.fst := by
    unfold freezeAll
    rw [map_fst_freeze]
    exact hfeat
  have hcondc : (buildClassifier (if ckpt.pretrained_model = "vgg16" then 25088
        else 1024) ckpt.hidden_units init2).params.map Prod.fst
      = ckpt.state_dict.classifier.map Prod.fst := by
    unfold buildClassifier
    rw [map_fst_names]
    exact hcls.symm
  unfold load_checkpoint
  rw [h1]
  dsimp only
  unfold loadStateDict
  rw [if_pos ⟨hcondf, hcondc⟩]
  dsimp only
  refine ⟨_, _, rfl, rfl, rfl, ?_, rfl, rfl, rfl⟩
  unfold Model.state_dict
  dsimp only
  rw [sd_of_setData _ _ hcondf, sd_of_setData _ _ hcondc]

/-- C1: checkpoint round-trip.  For every trained model carrying the
assembler's skeleton (backbone parameter names of the registry's entry for
its architecture, head parameter names and topology of the head builder),
saving a checkpoint and loading it back — rebuilding via the registry from
the stored architecture name and hidden width, then installing the stored
parameter values, `class_to_idx` and optimizer state — yields a model with
the same backbone identity, the same head topology, the same parameter
values (state dict), and the same `class_to_idx` as the model at save
time, plus an optimizer primed with the stored optimizer state. -/
theorem checkpoint_roundtrip (hub : Hub) (arch : String) (hidden_units : Nat)
    (m : Model) (d : Dataset) (ds : List Dataset) (epochs : Nat)
    (opt : Optimizer) (lr : ℚ) (input_size output_size : Nat)
    (init2 : String → Tensor)
    (hwf : hub.vgg16.arch = "vgg16" ∧ hub.densenet121.arch = "densenet121")
    (hsup : arch = "vgg16" ∨ arch = "densenet121")
    (harchm : m.arch = arch)
    (hfeat : m.features.map Prod.fst
      = (if arch = "vgg16" then hub.vgg16 else hub.densenet121).features.map
          Prod.fst)
    (hcls : m.classifier.params.map Prod.fst = classifierParamNames)
    (hlay : m.classifier.layers
      = classifierSpec (if arch = "vgg16" then 25088 else 1024) hidden_units) :
    ∃ mo ckpt mL optL,
      save_checkpoint m (d :: ds) epochs opt lr input_size output_size arch
          hidden_units = some (mo, ckpt) ∧
      load_checkpoint hub ckpt init2 = .ok (mL, optL) ∧
      mL.arch = mo.arch ∧
      mL.classifier.layers = mo.classifier.layers ∧
      mL.state_dict = mo.state_dict ∧
      mL.class_to_idx = mo.class_to_idx ∧
      optL.state = opt.state ∧ optL.lr = opt.lr := by
  have hf : (if arch = "vgg16" then hub.vgg16 else hub.densenet121).features.map
        Prod.fst
      = (Model.state_dict
          { m with class_to_idx := some d.class_to_idx }).features.map Prod.fst := by
    unfold Model.state_dict
    dsimp only
    rw [map_fst_data]
    exact hfeat.symm
  have hc : (Model.state_dict
        { m with class_to_idx := some d.class_to_idx }).classifier.map Prod.fst
      = classifierParamNames := by
    unfold Model.state_dict
    dsimp only
    rw [map_fst_data]
    exact hcls
  obtain ⟨mL, optL, hload, ha, hl, hsd, hci, hos, hol⟩ :=
    load_checkpoint_props hub
      ⟨arch, input_size, output_size, lr, hidden_units, m.classifier, epochs,
       Model.state_dict { m with class_to_idx := some d.class_to_idx },
       d.class_to_idx, opt.state_dict⟩ init2 hf hc
  refine ⟨{ m with class_to_idx := some d.class_to_idx },
    ⟨arch, input_size, output_size, lr, hidden_units, m.classifier, epochs,
     Model.state_dict { m with class_to_idx := some d.class_to_idx },
     d.class_to_idx, opt.state_dict⟩, mL, optL, rfl, hload, ?_, ?_, hsd, hci,
     hos, hol⟩
  · rcases hsup with h | h
    · subst h
      rw [ha]
      simp [hwf.1, harchm]
    · subst h
      rw [ha]
      simp [hwf.2, harchm]
  · rw [hl]
    exact hlay.symm

/-- Witness for C1: a concrete trained vgg16 model, saved and reloaded. -/
theorem checkpoint_roundtrip_witness :
    ((hub0.vgg16.arch = "vgg16" ∧ hub0.densenet121.arch = "densenet121") ∧
      ("vgg16" = "vgg16" ∨ "vgg16" = "densenet121") ∧
      mTrained.arch = "vgg16" ∧
      mTrained.features.map Prod.fst
        = (if "vgg16" = "vgg16" then hub0.vgg16
            else hub0.densenet121).features.map Prod.fst ∧
      mTrained.classifier.params.map Prod.fst = classifierParamNames ∧
      mTrained.classifier.layers
        = classifierSpec (if "vgg16" = "vgg16" then 25088 else 1024) 7) ∧
    (∃ mo ckpt mL optL,
      save_checkpoint mTrained [d0] 1 opt0 (1 / 1000) 25088 102 "vgg16" 7
        = some (mo, ckpt) ∧
      load_checkpoint hub0 ckpt init0 = .ok (mL, optL) ∧
      mL.arch = mo.arch ∧
      mL.classifier.layers = mo.classifier.layers ∧
      mL.state_dict = mo.state_dict ∧
      mL.class_to_idx = mo.class_to_idx ∧
      optL.state = opt0.state ∧ optL.lr = opt0.lr) :=
  ⟨⟨by decide, Or.inl rfl, by decide, by decide, by decide, by decide⟩,
   checkpoint_roundtrip hub0 "vgg16" 7 mTrained d0 [] 1 opt0 (1 / 1000) 25088
     102 init0 (by decide) (Or.inl rfl) (by decide) (by decide) (by decide)
     (by decide)⟩
